import Mathlib

/-!
# Verification of the RLM orchestrator (michaelneale/rlm)

A shallow embedding of the RLM driver loop (`rlm/rlm_repl.py`), the OpenAI
client wrapper (`rlm/utils/llm.py`), the tool-calling API wrapper
(`rlm/rlm_api.py`) and the server-side client cache (`rlm_server.py`),
together with theorems about the orchestration state machine.

The driving model is embedded as a deterministic script of API outcomes
consumed one per request, so a run of `completion` is a pure function of the
initial state and the script.  Requests issued to the Model Client are
recorded in a log so that request counts, iteration numbers and the
tools-enabled flag of each request can be stated and proved.

Modules imported by `rlm_repl.py` but not present in the sources
(`rlm/utils/utils.py`, `rlm/utils/prompts.py`, `rlm/repl.py`) are modelled
from the specification; each such definition carries a doc comment saying so.
-/

namespace RLMSpec

/-! ## Character-list string utilities

All text processing is done over `List Char` with fuel-based structural
recursion so that every definition evaluates inside the kernel. -/

/-- If `pat` is a prefix of `cs`, return the remainder of `cs`. -/
def dropPrefixL : List Char → List Char → Option (List Char)
  | [], cs => some cs
  | _ :: _, [] => none
  | p :: ps, c :: cs => if p = c then dropPrefixL ps cs else none

/-- Fuel-driven worker for splitting a character list on a separator. -/
def splitOnGo (sep : List Char) : Nat → List Char → List Char → List (List Char)
  | _, [], acc => [acc.reverse]
  | 0, cs, acc => [acc.reverse ++ cs]
  | n + 1, c :: cs, acc =>
    match dropPrefixL sep (c :: cs) with
    | some rest => acc.reverse :: splitOnGo sep n rest []
    | none => splitOnGo sep n cs (c :: acc)

/-- Split a string on every occurrence of a (nonempty) separator, like
Python's `str.split(sep)`. -/
def splitOnStr (sep s : String) : List String :=
  (splitOnGo sep.toList s.toList.length s.toList []).map fun cs => ⟨cs⟩

/-- `true` iff `pat` occurs as a substring of `s` (Python's `pat in s`). -/
def strContains (s pat : String) : Bool :=
  2 ≤ (splitOnStr pat s).length

/-- Join a list of strings with a separator. -/
def joinWith (sep : String) : List String → String
  | [] => ""
  | [s] => s
  | s :: rest => s ++ sep ++ joinWith sep rest

/-- Whitespace predicate used by `strTrim`. -/
def isWS (c : Char) : Bool :=
  c = ' ' || c = '\n' || c = '\t' || c = '\r'

/-- Strip leading and trailing whitespace (Python's `str.strip()`). -/
def strTrim (s : String) : String :=
  ⟨((s.toList.dropWhile isWS).reverse.dropWhile isWS).reverse⟩

/-- If `pat` is a prefix of `s`, return the remainder of `s`. -/
def strDropLeading (pat s : String) : Option String :=
  (dropPrefixL pat.toList s.toList).map fun cs => ⟨cs⟩

/-- First value bound to key `k` in an association list. -/
def lookupKey {α : Type} (k : String) : List (String × α) → Option α
  | [] => none
  | (n, v) :: rest => if n = k then some v else lookupKey k rest

/-! ## Data model -/

/-- One external tool call emitted by the driving model: identifier, function
name and JSON-encoded arguments (OpenAI wire shape). -/
structure ToolCall where
  id : String
  name : String
  arguments : String
deriving DecidableEq, Repr

/-- A conversation message.  `chat` covers plain role/content dicts,
`toolCallMsg` the assistant message recording a tool-call batch
(`utils.format_tool_call_message`), `toolResult` a caller-supplied tool
result entry (`role='tool'`, `tool_call_id`, content). -/
inductive Msg where
  | chat (role content : String)
  | toolCallMsg (content : Option String) (calls : List ToolCall)
  | toolResult (toolCallId content : String)
deriving DecidableEq, Repr

/-- The heterogeneous context input accepted by `completion`: plain text, a
single role/content entry, an ordered list of role/content entries, or a
list of strings (`List[str] | str | List[Dict[str, str]]`). -/
inductive CtxInput where
  | plain (s : String)
  | entry (role content : String)
  | entries (es : List (String × String))
  | strs (ss : List String)
deriving DecidableEq, Repr

/-- REPL execution environment state (`rlm/repl.py` is absent from the
sources).  Modelled from the spec: "a named-variable namespace plus the
Context; persists for the lifetime of a session"; it holds the normalized
context in structured and flattened form, the recursive model name, and the
variable namespace mutated only by executed code. -/
structure REPLEnv where
  contextJson : List (String × String)
  contextStr : String
  recursiveModel : String
  locals : List (String × String)
deriving DecidableEq, Repr

instance : Inhabited REPLEnv :=
  ⟨{ contextJson := [], contextStr := "", recursiveModel := "", locals := [] }⟩

/-- Orchestrator instance state: the fields of `RLM_REPL` that the driver
loop reads or writes (`messages`, `repl_env`, `_max_iterations`,
`recursive_model`, `query`). -/
structure OrchState where
  messages : List Msg
  replEnv : Option REPLEnv
  maxIterations : Nat
  recursiveModel : String
  query : Option String
deriving DecidableEq, Repr

/-! ## Model Client embedding -/

/-- One outcome of the underlying chat-completions API: either a message
with optional content and optional tool calls, or a raised error. -/
inductive ApiOutcome where
  | ok (content : Option String) (toolCalls : Option (List ToolCall))
  | err (msg : String)
deriving DecidableEq, Repr

/-- Value returned by `OpenAIClient.completion` (`rlm/utils/llm.py`): a bare
content string when `tools is None` (tool calls dropped), a dict with
`content` and `tool_calls` when tools were passed. -/
inductive LLMResponse where
  | plain (content : Option String)
  | withTools (content : Option String) (toolCalls : Option (List ToolCall))
deriving DecidableEq, Repr

/-- `OpenAIClient.completion` (src/rlm/utils/llm.py lines 43-76): a single
attempt; any API exception is wrapped once into a `RuntimeError` and raised —
there is no retry.  With tools it returns the content/tool_calls dict,
without tools just the content. -/
def clientCompletion (tools : Option (List String)) : ApiOutcome → Except String LLMResponse
  | .err e => .error ("Error generating completion: " ++ e)
  | .ok c tc =>
    match tools with
    | some _ => .ok (.withTools c tc)
    | none => .ok (.plain c)

/-- One Model Client request consumed from the script; an exhausted script
behaves like a failed API call. -/
def takeResponse (tools : Option (List String)) (script : List ApiOutcome) :
    Except String LLMResponse × List ApiOutcome :=
  match script with
  | [] => (.error "Error generating completion: no response", [])
  | o :: rest => (clientCompletion tools o, rest)

/-! ## Helpers imported from `rlm.utils.utils` and `rlm.utils.prompts`
(these modules are absent from the sources; modelled from the spec). -/

/-- Modelled from the spec: `rlm/utils/utils.py` (`has_tool_calls`) is
missing; a response carries tool calls iff it is the dict form with a
nonempty `tool_calls` list (a bare string never does). -/
def has_tool_calls : LLMResponse → Bool
  | .withTools _ (some (_ :: _)) => true
  | _ => false

/-- Modelled from the spec: `rlm/utils/utils.py` (`extract_response_content`)
is missing; the text of a response is its content, `""` for `None`. -/
def extract_response_content : LLMResponse → String
  | .plain c => c.getD ""
  | .withTools c _ => c.getD ""

/-- Modelled from the spec: `rlm/utils/utils.py` (`format_tool_call_message`)
is missing; the assistant message is appended "exactly as produced
(preserving tool-call identifiers)". -/
def format_tool_call_message : LLMResponse → Msg
  | .plain c => .toolCallMsg c []
  | .withTools c tc => .toolCallMsg c (tc.getD [])

/-- The `tool_calls` field of a response dict (`response['tool_calls']`). -/
def responseToolCalls : LLMResponse → List ToolCall
  | .plain _ => []
  | .withTools _ tc => tc.getD []

/-- The `content` field of a response (`response.get('content')`). -/
def responseContent : LLMResponse → Option String
  | .plain c => c
  | .withTools c _ => c

/-- Modelled from the spec: `rlm/utils/utils.py` (`find_code_blocks`) is
missing; "extract all code fences from the response text", i.e. the
segments between pairs of triple backticks, `None` when there are none. -/
def oddElems {α : Type} : List α → List α
  | [] => []
  | [_] => []
  | _ :: b :: rest => b :: oddElems rest

/-- The code fences of a response text, if any. -/
def find_code_blocks (text : String) : Option (List String) :=
  match oddElems (splitOnStr (String.mk ['`', '`', '`']) text) with
  | [] => none
  | bs => some bs

/-- Modelled from the spec: `rlm/repl.py` (code execution) is missing.  The
spec requires only that executed code can bind variables in the namespace,
produce output, or raise; this minimal command language captures exactly
that: `raise <msg>` raises, `<name> = <value>` binds, anything else echoes. -/
def execCode (env : REPLEnv) (code : String) : REPLEnv × Except String String :=
  let c := strTrim code
  match strDropLeading "raise " c with
  | some msg => (env, .error msg)
  | none =>
    match splitOnStr " = " c with
    | [n, v] => ({ env with locals := (n, v) :: env.locals }, .ok "")
    | _ => (env, .ok c)

/-- Execute a list of code fences sequentially against the environment,
collecting one result per fence. -/
def execBlocks : REPLEnv → List String → REPLEnv × List (Except String String)
  | env, [] => (env, [])
  | env, b :: bs =>
    let r1 := execCode env b
    let r2 := execBlocks r1.1 bs
    (r2.1, r1.2 :: r2.2)

/-- Render one execution result for the observation message; an exception
becomes its text, never a raised error. -/
def renderResult : Except String String → String
  | .ok s => s
  | .error e => "Error: " ++ e

/-- Modelled from the spec: `rlm/utils/utils.py` (`process_code_execution`)
is missing; "execute each sequentially against the Execution Environment,
capture output/return value/exception per fence, append an observation
message summarizing execution results (including any exception text, never
raised to the caller)". -/
def process_code_execution (text : String) (messages : List Msg) (env : REPLEnv) :
    List Msg × REPLEnv :=
  let blocks := (find_code_blocks text).getD []
  let r := execBlocks env blocks
  (messages ++ [Msg.chat "user" ("REPL output:\n" ++ joinWith "\n" (r.2.map renderResult))],
   r.1)

/-- Modelled from the spec: `rlm/utils/utils.py` (`check_for_final_answer`)
is missing; "scan for a final-answer marker (either in the response text or
in a designated Execution Environment answer slot)"; an empty answer is
falsy in Python and therefore not final. -/
def check_for_final_answer (text : String) (env : REPLEnv) : Option String :=
  match splitOnStr "FINAL:" text with
  | _ :: ans :: _ =>
    let a := strTrim ans
    if a = "" then none else some a
  | _ =>
    match lookupKey "final_answer" env.locals with
    | some a => if a = "" then none else some a
    | none => none

/-- Modelled from the spec: `rlm/utils/prompts.py` (`DEFAULT_QUERY`) is
missing; the default query used when none is supplied. -/
def DEFAULT_QUERY : String := "Summarize the provided context."

/-- Modelled from the spec: `rlm/utils/prompts.py` (`build_system_prompt`)
is missing; the initial Conversation is the system instructions. -/
def build_system_prompt : List Msg :=
  [Msg.chat "system" "You are a recursive language model with a REPL environment."]

/-- Modelled from the spec: `rlm/utils/prompts.py` (`next_action_prompt`) is
missing; an "iteration-numbered instruction" appended to each request, with
a final-answer variant used for forced finalization. -/
def next_action_prompt (query : Option String) (iteration : Nat) (finalAnswer : Bool) : Msg :=
  if finalAnswer then
    Msg.chat "user" ("Iteration " ++ toString iteration ++
      ": provide your final answer to: " ++ query.getD "None")
  else
    Msg.chat "user" ("Iteration " ++ toString iteration ++
      ": choose your next action for: " ++ query.getD "None")

/-- Modelled from the spec: `rlm/utils/utils.py` (`convert_context_for_repl`)
is missing; the Context Normalizer "must accept plain text, an ordered list
of role/content entries, or a single entry" and return
"(structured_form, flattened_string)". -/
def convert_context_for_repl : CtxInput → List (String × String) × String
  | .plain s => ([("user", s)], s)
  | .entry r c => ([(r, c)], c)
  | .entries es => (es, joinWith "\n" (es.map Prod.snd))
  | .strs ss => (ss.map fun s => ("user", s), joinWith "\n" ss)

/-! ## The orchestrator (`src/rlm/rlm_repl.py`) -/

/-- `RLM_REPL.setup_context` (src/rlm/rlm_repl.py lines 47-74): store the
query (defaulted), reset the Conversation to the system prompt, and build a
fresh `REPLEnv` from the normalized context with an empty namespace. -/
def setup_context (st : OrchState) (context : CtxInput) (query : Option String) : OrchState :=
  let p := convert_context_for_repl context
  { st with
    query := some (query.getD DEFAULT_QUERY),
    messages := build_system_prompt,
    replEnv := some
      { contextJson := p.1, contextStr := p.2,
        recursiveModel := st.recursiveModel, locals := [] } }

/-- Record of one Model Client request: the messages sent, whether the tool
schema was attached, and the iteration number in the instruction. -/
structure ReqRecord where
  sentMessages : List Msg
  tools : Option (List String)
  iteration : Nat
deriving DecidableEq, Repr

/-- Caller-visible outcome of one `completion` call. -/
inductive CompletionOutcome where
  | final (text : String)
  | paused (toolCalls : List ToolCall) (content : Option String) (iteration : Nat)
  | llmError (msg : String)
deriving DecidableEq, Repr

/-- Result of running `completion`: the outcome, the instance state left
behind (`self.messages`, `self.repl_env`), the log of issued requests, and
the unconsumed tail of the script. -/
structure RunResult where
  outcome : CompletionOutcome
  messages : List Msg
  replEnv : Option REPLEnv
  requests : List ReqRecord
  scriptRest : List ApiOutcome
deriving DecidableEq, Repr

/-- The driver loop of `RLM_REPL.completion` (src/rlm/rlm_repl.py lines
110-172).  First `Nat` argument: iterations remaining of
`range(self._max_iterations)`; second: the current value of `iteration`.
Each iteration issues one request and classifies the response in strict
priority order: tool calls pause the loop, otherwise code fences are
executed, otherwise the text is appended as an assistant turn, then a final
answer is looked for.  At exhaustion a single forced-finalization request is
issued with `tools=None`; Python reuses the loop variable there, whose value
is `max_iterations - 1`, i.e. `iteration - 1` at the exhausted call site
(the `max_iterations = 0` case, where Python would raise `NameError`, is
modelled with truncated subtraction and excluded by hypotheses). -/
def completionLoop (tools : Option (List String)) (query : Option String) :
    Nat → Nat → List Msg → REPLEnv → List ApiOutcome → List ReqRecord → RunResult
  | 0, iteration, messages, env, script, log =>
    let msgs := messages ++ [next_action_prompt query (iteration - 1) true]
    let req : ReqRecord := ⟨msgs, none, iteration - 1⟩
    let t := takeResponse none script
    (match t.1 with
     | .error e => ⟨.llmError e, msgs, some env, log ++ [req], t.2⟩
     | .ok resp => ⟨.final (extract_response_content resp), msgs, some env, log ++ [req], t.2⟩)
  | n + 1, iteration, messages, env, script, log =>
    let req : ReqRecord := ⟨messages ++ [next_action_prompt query iteration false], tools, iteration⟩
    let t := takeResponse tools script
    (match t.1 with
     | .error e => ⟨.llmError e, messages, some env, log ++ [req], t.2⟩
     | .ok resp =>
       if has_tool_calls resp then
         ⟨.paused (responseToolCalls resp) (responseContent resp) iteration,
          messages ++ [format_tool_call_message resp], some env, log ++ [req], t.2⟩
       else
         let text := extract_response_content resp
         let step :=
           match find_code_blocks text with
           | some _ => process_code_execution text messages env
           | none =>
             (messages ++ [Msg.chat "assistant" ("You responded with:\n" ++ text)], env)
         match check_for_final_answer text step.2 with
         | some ans => ⟨.final ans, step.1, some step.2, log ++ [req], t.2⟩
         | none => completionLoop tools query n (iteration + 1) step.1 step.2 t.2 (log ++ [req]))

/-- `RLM_REPL.completion` (src/rlm/rlm_repl.py lines 76-172): without
`tool_results` a new session is set up; with `tool_results` the entries are
appended to the existing Conversation verbatim and the loop restarts over
`range(self._max_iterations)` (the `repl_env is None` resume corner, which
the Python would only hit on later attribute access, is modelled by a
default environment). -/
def completion (st : OrchState) (context : CtxInput) (query : Option String)
    (tools : Option (List String)) (toolResults : Option (List Msg))
    (script : List ApiOutcome) : RunResult :=
  match toolResults with
  | none =>
    let st' := setup_context st context query
    completionLoop tools query st'.maxIterations 0 st'.messages
      (st'.replEnv.getD default) script []
  | some trs =>
    completionLoop tools query st.maxIterations 0 (st.messages ++ trs)
      (st.replEnv.getD default) script []

/-! ## Server-side client cache (`src/rlm_server.py`) -/

/-- The process-wide `rlm_clients` cache plus a source of fresh client
identities (object identity of the Python `RLMToolCallingAPI` instances). -/
structure ServerCache where
  clients : List (String × Nat)
  nextId : Nat
deriving DecidableEq, Repr

/-- Key resolution of `get_rlm_client` (src/rlm_server.py lines 105-117):
split on the first `:` when present, otherwise default the recursive model
to `gpt-4o` for names containing `nano` or `mini` and to the model itself
otherwise. -/
def resolveClientKey (model : String) (recursiveModel : Option String) : String × String :=
  if strContains model ":" then
    match splitOnStr ":" model with
    | base :: rest => (base, joinWith ":" rest)
    | [] => (model, model)
  else
    (model,
     match recursiveModel with
     | some r => r
     | none =>
       if strContains model "nano" || strContains model "mini" then "gpt-4o" else model)

/-- `get_rlm_client` (src/rlm_server.py lines 105-128): look the resolved
`base:recursive` key up in the cache, creating and storing a client only on
a miss.  Returns the updated cache and the client for the key. -/
def get_rlm_client (cache : ServerCache) (model : String)
    (recursiveModel : Option String) : ServerCache × Nat :=
  let k := resolveClientKey model recursiveModel
  let cacheKey := k.1 ++ ":" ++ k.2
  match lookupKey cacheKey cache.clients with
  | some cid => (cache, cid)
  | none =>
    ({ clients := (cacheKey, cache.nextId) :: cache.clients, nextId := cache.nextId + 1 },
     cache.nextId)

/-! ## Shared lemmas about the driver loop -/

set_option maxHeartbeats 1000000

/-- Request-log invariant of the driver loop: starting with `n` iterations
left at iteration number `it`, at most `n + 1` further requests are issued
(one per iteration plus at most one forced finalization), the iteration
numbers in the log stay sorted, and every iteration number stays below the
budget `M`. -/
lemma loop_req_invariant (tools : Option (List String)) (q : Option String) (M : Nat)
    (hM : 1 ≤ M) :
    ∀ (n it : Nat) (msgs : List Msg) (env : REPLEnv) (script : List ApiOutcome)
      (log : List ReqRecord),
      it + n ≤ M →
      (∀ r ∈ log, r.iteration + 1 ≤ it) →
      List.Sorted (· ≤ ·) (log.map ReqRecord.iteration) →
      (completionLoop tools q n it msgs env script log).requests.length ≤ log.length + n + 1 ∧
      List.Sorted (· ≤ ·)
        ((completionLoop tools q n it msgs env script log).requests.map ReqRecord.iteration) ∧
      ∀ r ∈ (completionLoop tools q n it msgs env script log).requests,
        r.iteration < M := by
  intro n
  induction n with
  | zero =>
    intro it msgs env script log hit hlog hsort
    have hreq : ∀ (rq : ReqRecord), rq.iteration = it - 1 →
        ((log ++ [rq]).length ≤ log.length + 0 + 1 ∧
         List.Sorted (· ≤ ·) ((log ++ [rq]).map ReqRecord.iteration) ∧
         ∀ r ∈ log ++ [rq], r.iteration < M) := by
      intro rq hrq
      refine ⟨by simp only [List.length_append, List.length_cons, List.length_nil]; omega, ?_, ?_⟩
      · rw [List.map_append]
        refine List.pairwise_append.mpr ⟨hsort, by simp, ?_⟩
        intro x hx y hy
        simp only [List.map_cons, List.map_nil, List.mem_singleton] at hy
        simp only [List.mem_map] at hx
        obtain ⟨r, hr, rfl⟩ := hx
        have := hlog r hr
        subst hy
        rw [hrq]
        omega
      · intro r hr
        rcases List.mem_append.mp hr with h | h
        · have := hlog r h; omega
        · simp only [List.mem_singleton] at h
          subst h
          rw [hrq]
          omega
    rcases script with _ | ⟨o, rest⟩
    · exact hreq _ rfl
    · rcases o with ⟨c, tc⟩ | e
      · exact hreq _ rfl
      · exact hreq _ rfl
  | succ n ih =>
    intro it msgs env script log hit hlog hsort
    have hreqfacts : ∀ (rq : ReqRecord), rq.iteration = it →
        ((log ++ [rq]).length ≤ log.length + (n + 1) + 1 ∧
         List.Sorted (· ≤ ·) ((log ++ [rq]).map ReqRecord.iteration) ∧
         ∀ r ∈ log ++ [rq], r.iteration < M) := by
      intro rq hrq
      refine ⟨by simp only [List.length_append, List.length_cons, List.length_nil]; omega, ?_, ?_⟩
      · rw [List.map_append]
        refine List.pairwise_append.mpr ⟨hsort, by simp, ?_⟩
        intro x hx y hy
        simp only [List.map_cons, List.map_nil, List.mem_singleton] at hy
        simp only [List.mem_map] at hx
        obtain ⟨r, hr, rfl⟩ := hx
        have := hlog r hr
        subst hy
        rw [hrq]
        omega
      · intro r hr
        rcases List.mem_append.mp hr with h | h
        · have := hlog r h; omega
        · simp only [List.mem_singleton] at h
          subst h
          rw [hrq]
          omega
    have hext : ∀ (rq : ReqRecord), rq.iteration = it →
        (∀ r ∈ log ++ [rq], r.iteration + 1 ≤ it + 1) := by
      intro rq hrq r hr
      rcases List.mem_append.mp hr with h | h
      · have := hlog r h; omega
      · simp only [List.mem_singleton] at h; subst h; omega
    have hrec : ∀ (m2 : List Msg) (e2 : REPLEnv) (rest : List ApiOutcome),
        (completionLoop tools q n (it + 1) m2 e2 rest
           (log ++ [(⟨msgs ++ [next_action_prompt q it false], tools, it⟩ : ReqRecord)])).requests.length
          ≤ log.length + (n + 1) + 1 ∧
        List.Sorted (· ≤ ·)
          ((completionLoop tools q n (it + 1) m2 e2 rest
             (log ++ [(⟨msgs ++ [next_action_prompt q it false], tools, it⟩ : ReqRecord)])).requests.map
            ReqRecord.iteration) ∧
        ∀ r ∈ (completionLoop tools q n (it + 1) m2 e2 rest
             (log ++ [(⟨msgs ++ [next_action_prompt q it false], tools, it⟩ : ReqRecord)])).requests,
          r.iteration < M := by
      intro m2 e2 rest
      obtain ⟨h1, h2, h3⟩ := ih (it + 1) m2 e2 rest _ (by omega)
        (hext ⟨msgs ++ [next_action_prompt q it false], tools, it⟩ rfl)
        ((hreqfacts ⟨msgs ++ [next_action_prompt q it false], tools, it⟩ rfl).2.1)
      refine ⟨?_, h2, h3⟩
      simp only [List.length_append, List.length_cons, List.length_nil] at h1 ⊢
      omega
    rcases script with _ | ⟨o, rest⟩
    · exact hreqfacts _ rfl
    · rcases o with ⟨c, tc⟩ | e
      · rcases tools with _ | ts
        · -- tools = none: the response is a bare string, never tool calls
          simp only [completionLoop, takeResponse, clientCompletion]
          split
          · next htc => simp [has_tool_calls] at htc
          · split
            · exact hreqfacts _ rfl
            · exact hrec _ _ _
        · -- tools present: case on the tool calls of the response
          rcases tc with _ | ⟨_ | ⟨t0, trest⟩⟩
          · simp only [completionLoop, takeResponse, clientCompletion]
            split
            · next htc => simp [has_tool_calls] at htc
            · split
              · exact hreqfacts _ rfl
              · exact hrec _ _ _
          · simp only [completionLoop, takeResponse, clientCompletion]
            split
            · next htc => simp [has_tool_calls] at htc
            · split
              · exact hreqfacts _ rfl
              · exact hrec _ _ _
          · simp only [completionLoop, takeResponse, clientCompletion]
            split
            · exact hreqfacts _ rfl
            · next htc => simp [has_tool_calls] at htc
      · exact hreqfacts _ rfl

/-- A fenced code block whose execution raises (`raise boom`). -/
def raisingCode : String := "```\nraise boom\n```"

/-- The Scenario B driving-model script: `n` responses that each contain only
a code fence that raises, followed by one plain-text answer for the forced
finalization request. -/
def scenarioBScript (n : Nat) (ans : String) : List ApiOutcome :=
  List.replicate n (ApiOutcome.ok (some raisingCode) none) ++ [.ok (some ans) none]

/-- Running the loop on the Scenario B script: every budgeted iteration
executes the raising fence and continues, and the forced finalization
returns the final script entry, with exactly `n + 1` requests issued in
total and the last one carrying no tool schema. -/
lemma loop_forced_finalization_aux (tools : Option (List String)) (q : Option String)
    (ans : String) :
    ∀ (n it : Nat) (msgs : List Msg) (log : List ReqRecord)
      (cj : List (String × String)) (cs rm : String),
      (completionLoop tools q n it msgs ⟨cj, cs, rm, []⟩ (scenarioBScript n ans) log).outcome =
        .final ans ∧
      (completionLoop tools q n it msgs ⟨cj, cs, rm, []⟩
        (scenarioBScript n ans) log).requests.length = log.length + n + 1 ∧
      ((completionLoop tools q n it msgs ⟨cj, cs, rm, []⟩
        (scenarioBScript n ans) log).requests.getLast?).map ReqRecord.tools = some none := by
  intro n
  induction n with
  | zero =>
    intro it msgs log cj cs rm
    refine ⟨rfl, by simp [completionLoop, scenarioBScript, takeResponse, clientCompletion], ?_⟩
    show ((log ++ [_]).getLast?).map ReqRecord.tools = some none
    rw [List.getLast?_concat]
    rfl
  | succ n ih =>
    intro it msgs log cj cs rm
    have hstep : completionLoop tools q (n + 1) it msgs ⟨cj, cs, rm, []⟩
        (scenarioBScript (n + 1) ans) log =
        completionLoop tools q n (it + 1)
          (msgs ++ [Msg.chat "user" "REPL output:\nError: boom"]) ⟨cj, cs, rm, []⟩
          (scenarioBScript n ans)
          (log ++ [⟨msgs ++ [next_action_prompt q it false], tools, it⟩]) := by
      cases tools <;> rfl
    rw [hstep]
    obtain ⟨h1, h2, h3⟩ := ih (it + 1) (msgs ++ [Msg.chat "user" "REPL output:\nError: boom"])
      (log ++ [⟨msgs ++ [next_action_prompt q it false], tools, it⟩]) cj cs rm
    refine ⟨h1, ?_, h3⟩
    rw [h2]
    simp only [List.length_append, List.length_cons, List.length_nil]
    omega

/-! ## Claim theorems -/

/-- C1: when the model response of an iteration contains at least one tool
call, the loop appends the assistant tool-call message, returns a paused
result carrying the tool calls and the partial content, leaves the
execution environment untouched, consumes no further script entries, and in
particular never executes any code fence the same response may contain
(even when `c` holds fenced code). -/
theorem tool_call_pause_skips_code_execution (ts : List String) (q : Option String)
    (msgs : List Msg) (env : REPLEnv) (c : Option String) (tc : ToolCall)
    (tcs : List ToolCall) (rest : List ApiOutcome) (k it : Nat) (log : List ReqRecord) :
    completionLoop (some ts) q (k + 1) it msgs env (.ok c (some (tc :: tcs)) :: rest) log =
      ⟨.paused (tc :: tcs) c it,
       msgs ++ [Msg.toolCallMsg c (tc :: tcs)], some env,
       log ++ [⟨msgs ++ [next_action_prompt q it false], some ts, it⟩], rest⟩ := rfl

/-- C2 (counterexample): a session with iteration budget N = 1 that pauses
for a tool call and is then resumed issues 3 Model Client requests in
total, exceeding the claimed session-wide bound of N + 1 = 2, because the
resumed call restarts the loop with a fresh budget. -/
theorem session_request_count_exceeds_budget :
    (let st0 : OrchState := ⟨[], none, 1, "gpt-4o", none⟩
     let r1 := completion st0 (.plain "ctx") (some "q") (some ["toolA"]) none
       [.ok none (some [⟨"t1", "f", ""⟩])]
     let r2 := completion ⟨r1.messages, r1.replEnv, 1, "gpt-4o", some "q"⟩ (.plain "ctx")
       (some "q") (some ["toolA"]) (some [Msg.toolResult "t1" "result"])
       [.ok (some "nothing") none, .ok (some "the end") none]
     r1.outcome = .paused [⟨"t1", "f", ""⟩] none 0 ∧
     r2.outcome = .final "the end" ∧
     r1.requests.length + r2.requests.length = 3 ∧
     ¬ r1.requests.length + r2.requests.length ≤ 1 + 1) := by decide

/-- C2 (amended): within a single invocation of `completion` with budget N
(N ≥ 1) at most N + 1 Model Client requests are issued, their iteration
numbers are monotonically non-decreasing, and every iteration number stays
below N; the session-wide bound fails only because a resume restarts the
counter and the budget. -/
theorem completion_per_call_request_bound (st : OrchState) (context : CtxInput)
    (query : Option String) (tools : Option (List String)) (toolResults : Option (List Msg))
    (script : List ApiOutcome) (h : 1 ≤ st.maxIterations) :
    (completion st context query tools toolResults script).requests.length ≤
      st.maxIterations + 1 ∧
    List.Sorted (· ≤ ·)
      ((completion st context query tools toolResults script).requests.map
        ReqRecord.iteration) ∧
    ∀ r ∈ (completion st context query tools toolResults script).requests,
      r.iteration < st.maxIterations := by
  rcases toolResults with _ | trs
  · obtain ⟨h1, h2, h3⟩ := loop_req_invariant tools query st.maxIterations h
      st.maxIterations 0 (setup_context st context query).messages
      ((setup_context st context query).replEnv.getD default) script []
      (by omega) (by simp) (by simp)
    exact ⟨by simpa using h1, h2, h3⟩
  · obtain ⟨h1, h2, h3⟩ := loop_req_invariant tools query st.maxIterations h
      st.maxIterations 0 (st.messages ++ trs)
      (st.replEnv.getD default) script []
      (by omega) (by simp) (by simp)
    exact ⟨by simpa using h1, h2, h3⟩

/-- C2 (witness): the per-call bound evaluated on a concrete session with
budget 2 that answers on the first iteration. -/
theorem completion_per_call_request_bound_witness :
    1 ≤ (⟨[], none, 2, "gpt-4o", none⟩ : OrchState).maxIterations ∧
    (completion ⟨[], none, 2, "gpt-4o", none⟩ (.plain "ctx") (some "q") none none
      [.ok (some "FINAL: 42") none]).requests.length ≤ 2 + 1 :=
  ⟨by decide,
   (completion_per_call_request_bound ⟨[], none, 2, "gpt-4o", none⟩ (.plain "ctx") (some "q")
     none none [.ok (some "FINAL: 42") none] (by decide)).1⟩

/-- C3 (counterexample): resuming a session whose pending batch holds the
single identifier `t1` with two tool results whose identifiers are
`WRONG-ID` and `extra` does not raise any error: the mismatched entries are
appended to the conversation verbatim and the run completes normally, where
the claim requires a ProtocolError. -/
theorem mismatched_tool_results_accepted :
    (let st : OrchState :=
       ⟨[Msg.chat "system" "s", Msg.toolCallMsg none [⟨"t1", "f", ""⟩]],
        some ⟨[("user", "ctx")], "ctx", "gpt-4o", []⟩, 1, "gpt-4o", some "q"⟩
     let r := completion st (.plain "ctx") (some "q") (some ["toolA"])
       (some [Msg.toolResult "WRONG-ID" "result", Msg.toolResult "extra" "junk"])
       [.ok (some "FINAL: fine") none]
     r.outcome = .final "fine" ∧
     Msg.toolResult "WRONG-ID" "result" ∈ r.messages ∧
     Msg.toolResult "extra" "junk" ∈ r.messages) := by decide

/-- C3 (amended): resume performs no validation whatsoever: for every list
of supplied tool-result entries — matching, missing, extra or misattributed
identifiers alike, even with no pending batch — the entries are appended to
the conversation and the loop proceeds; with a model that immediately
answers, the resume returns that answer for any `trs`. -/
theorem resume_appends_tool_results_unvalidated (st : OrchState) (context : CtxInput)
    (query : Option String) (tools : Option (List String)) (trs : List Msg)
    (h : 1 ≤ st.maxIterations) :
    (completion st context query tools (some trs)
      [.ok (some "FINAL: done") none]).outcome = .final "done" := by
  obtain ⟨k, hk⟩ : ∃ k, st.maxIterations = k + 1 := ⟨st.maxIterations - 1, by omega⟩
  simp only [completion]
  rw [hk]
  cases tools <;> rfl

/-- C3 (witness): a resume supplying a tool result with identifier `t9`
against a pending batch with identifier `t1` succeeds. -/
theorem resume_appends_tool_results_unvalidated_witness :
    (completion ⟨[Msg.toolCallMsg none [⟨"t1", "f", ""⟩]], none, 1, "gpt-4o", some "q"⟩
      (.plain "ctx") (some "q") (some ["toolA"])
      (some [Msg.toolResult "t9" "mismatched"]) [.ok (some "FINAL: done") none]).outcome =
      .final "done" :=
  resume_appends_tool_results_unvalidated
    ⟨[Msg.toolCallMsg none [⟨"t1", "f", ""⟩]], none, 1, "gpt-4o", some "q"⟩
    (.plain "ctx") (some "q") (some ["toolA"]) [Msg.toolResult "t9" "mismatched"] (by decide)

/-- C4 (counterexample): a session with budget N = 2 pauses on its last
budgeted iteration (iteration 1), so zero iterations remain; yet the resume
issues 3 further requests — two fresh loop iterations (the first numbered 0
again, with the tool schema attached) and a forced finalization — where the
claim requires the resume to continue with only the remaining (zero)
iterations. -/
theorem resume_uses_fresh_budget :
    (let st0 : OrchState := ⟨[], none, 2, "gpt-4o", none⟩
     let r1 := completion st0 (.plain "ctx") (some "q") (some ["toolA"]) none
       [.ok (some "thinking") none, .ok none (some [⟨"t1", "f", ""⟩])]
     let r2 := completion ⟨r1.messages, r1.replEnv, 2, "gpt-4o", some "q"⟩ (.plain "ctx")
       (some "q") (some ["toolA"]) (some [Msg.toolResult "t1" "result"])
       [.ok (some "a") none, .ok (some "b") none, .ok (some "final text") none]
     r1.outcome = .paused [⟨"t1", "f", ""⟩] none 1 ∧
     r2.requests.length = 3 ∧
     (r2.requests.head?).map ReqRecord.iteration = some 0 ∧
     (r2.requests.head?).map ReqRecord.tools = some (some ["toolA"]) ∧
     r2.outcome = .final "final text") := by decide

/-- C4 (amended): a resume appends the supplied tool results to the prior
conversation and then restarts the iteration loop with the full configured
budget and the iteration counter reset to 0 — a fresh budget of N, not the
remainder of the original one (the pending batch is not tracked, so nothing
is explicitly cleared). -/
theorem resume_restarts_full_iteration_budget (st : OrchState) (context : CtxInput)
    (query : Option String) (tools : Option (List String)) (trs : List Msg)
    (script : List ApiOutcome) :
    completion st context query tools (some trs) script =
      completionLoop tools query st.maxIterations 0 (st.messages ++ trs)
        (st.replEnv.getD default) script [] := rfl

/-- C5: on a driving model that always returns a code fence that raises and
never a final-answer marker (Scenario B), `completion` with budget N ≥ 1
runs all N iterations, then issues exactly one extra request with
`tools = None` (so N + 1 requests in total) and returns the text of that
final response verbatim — no code in it is executed and nothing is raised. -/
theorem forced_finalization_single_extra_request (st : OrchState) (context : CtxInput)
    (query : Option String) (tools : Option (List String)) (ans : String)
    (_h : 1 ≤ st.maxIterations) :
    (completion st context query tools none (scenarioBScript st.maxIterations ans)).outcome =
      .final ans ∧
    (completion st context query tools none
      (scenarioBScript st.maxIterations ans)).requests.length = st.maxIterations + 1 ∧
    ((completion st context query tools none
      (scenarioBScript st.maxIterations ans)).requests.getLast?).map ReqRecord.tools =
      some none := by
  obtain ⟨h1, h2, h3⟩ := loop_forced_finalization_aux tools query ans st.maxIterations 0
    build_system_prompt [] (convert_context_for_repl context).1
    (convert_context_for_repl context).2 st.recursiveModel
  exact ⟨h1, by simpa using h2, h3⟩

/-- C5 (witness): forced finalization evaluated with budget 1 returns the
non-empty best-effort answer. -/
theorem forced_finalization_single_extra_request_witness :
    1 ≤ (⟨[], none, 1, "gpt-4o", none⟩ : OrchState).maxIterations ∧
    (completion ⟨[], none, 1, "gpt-4o", none⟩ (.plain "ctx") (some "q") none none
      (scenarioBScript 1 "best effort")).outcome = .final "best effort" :=
  ⟨by decide,
   (forced_finalization_single_extra_request ⟨[], none, 1, "gpt-4o", none⟩ (.plain "ctx")
     (some "q") none "best effort" (by decide)).1⟩

/-- C6: when a response carries code fences and executing them raises (some
result is an error), the failure is caught: the loop appends an observation
message built from the per-fence results — whose rendering contains the
exception text `e` — and continues with the next iteration on the remaining
script; the exception never escapes as an error outcome of this step. -/
theorem execution_error_becomes_observation (tools : Option (List String))
    (q : Option String) (msgs : List Msg) (env : REPLEnv) (txt : String)
    (bs : List String) (env' : REPLEnv) (rs : List (Except String String)) (e : String)
    (rest : List ApiOutcome) (k it : Nat) (log : List ReqRecord)
    (hb : find_code_blocks txt = some bs)
    (he : execBlocks env bs = (env', rs))
    (hm : Except.error e ∈ rs)
    (hf : check_for_final_answer txt env' = none) :
    completionLoop tools q (k + 1) it msgs env (.ok (some txt) none :: rest) log =
      completionLoop tools q k (it + 1)
        (msgs ++ [Msg.chat "user" ("REPL output:\n" ++ joinWith "\n" (rs.map renderResult))])
        env' rest (log ++ [⟨msgs ++ [next_action_prompt q it false], tools, it⟩]) ∧
    ("Error: " ++ e) ∈ rs.map renderResult := by
  constructor
  · cases tools <;>
      simp only [completionLoop, takeResponse, clientCompletion, has_tool_calls,
        extract_response_content, Option.getD, process_code_execution, hb, he, hf,
        Bool.false_eq_true, if_false]
  · simpa using List.mem_map_of_mem renderResult hm

/-- C6 (witness): a raising fence evaluated concretely: the step reduces to
the continuation with the `Error: boom` observation appended. -/
theorem execution_error_becomes_observation_witness :
    completionLoop none none 1 0 [] default [.ok (some raisingCode) none] [] =
      completionLoop none none 0 1
        ([] ++ [Msg.chat "user" ("REPL output:\n" ++ joinWith "\n"
          ([Except.error "boom"].map renderResult))])
        default [] ([] ++ [⟨[] ++ [next_action_prompt none 0 false], none, 0⟩]) ∧
    ("Error: " ++ "boom") ∈ [Except.error "boom"].map renderResult :=
  execution_error_becomes_observation none none [] default raisingCode ["\nraise boom\n"]
    default [.error "boom"] "boom" [] 0 0 [] (by decide) rfl (by simp) (by decide)

/-- C7: when the Model Client call of an iteration fails, the single wrapped
error becomes the outcome of `completion` with the state unchanged, exactly
one request having been issued for it and the rest of the script untouched —
the failed call is never retried. -/
theorem model_client_error_propagates_unretried (tools : Option (List String))
    (q : Option String) (msgs : List Msg) (env : REPLEnv) (e : String)
    (rest : List ApiOutcome) (k it : Nat) (log : List ReqRecord) :
    completionLoop tools q (k + 1) it msgs env (.err e :: rest) log =
      ⟨.llmError ("Error generating completion: " ++ e), msgs, some env,
       log ++ [⟨msgs ++ [next_action_prompt q it false], tools, it⟩], rest⟩ := rfl

/-- C8: a fresh session is a function of the context, query, tools and
model script alone: two orchestrator instances that agree on the
configuration (budget and recursive model) produce identical runs from
identical context, whatever conversation or environment state — including
variables bound by code run in other sessions — either instance held
before; and the session's environment is built fresh with an empty
variable namespace. -/
theorem fresh_sessions_share_no_state (context : CtxInput) (query : Option String)
    (tools : Option (List String)) (script : List ApiOutcome) (st1 st2 : OrchState)
    (hM : st1.maxIterations = st2.maxIterations)
    (hR : st1.recursiveModel = st2.recursiveModel) :
    completion st1 context query tools none script =
      completion st2 context query tools none script ∧
    (setup_context st1 context query).replEnv =
      some ⟨(convert_context_for_repl context).1, (convert_context_for_repl context).2,
            st1.recursiveModel, []⟩ := by
  constructor
  · simp only [completion, setup_context, hM, hR]
  · rfl

/-- C8 (witness): an instance whose environment still holds a binding of
`x` from earlier executed code runs a new session identically to a pristine
instance, and the new session's namespace starts empty. -/
theorem fresh_sessions_share_no_state_witness :
    completion ⟨[Msg.chat "assistant" "leftover"],
        some ⟨[("user", "ctx")], "ctx", "gpt-4o", [("x", "1")]⟩, 1, "gpt-4o", some "old"⟩
      (.plain "shared context") (some "q") none none [.ok (some "FINAL: ok") none] =
    completion ⟨[], none, 1, "gpt-4o", none⟩
      (.plain "shared context") (some "q") none none [.ok (some "FINAL: ok") none] ∧
    (setup_context ⟨[Msg.chat "assistant" "leftover"],
        some ⟨[("user", "ctx")], "ctx", "gpt-4o", [("x", "1")]⟩, 1, "gpt-4o", some "old"⟩
      (.plain "shared context") (some "q")).replEnv =
      some ⟨(convert_context_for_repl (.plain "shared context")).1,
            (convert_context_for_repl (.plain "shared context")).2, "gpt-4o", []⟩ :=
  fresh_sessions_share_no_state (.plain "shared context") (some "q") none
    [.ok (some "FINAL: ok") none]
    ⟨[Msg.chat "assistant" "leftover"], some ⟨[("user", "ctx")], "ctx", "gpt-4o", [("x", "1")]⟩,
      1, "gpt-4o", some "old"⟩
    ⟨[], none, 1, "gpt-4o", none⟩ (by decide) (by decide)

/-- C9: context normalization is a pure deterministic function of its input:
equal inputs — plain text, a single entry, or an ordered entry list — give
equal (structured form, flattened string) results. -/
theorem normalize_pure_deterministic (x y : CtxInput) (h : x = y) :
    convert_context_for_repl x = convert_context_for_repl y := by rw [h]

/-- C9 (witness): determinism evaluated on a concrete entry list. -/
theorem normalize_pure_deterministic_witness :
    convert_context_for_repl (.entries [("system", "sys"), ("user", "doc")]) =
      convert_context_for_repl (.entries [("system", "sys"), ("user", "doc")]) :=
  normalize_pure_deterministic (.entries [("system", "sys"), ("user", "doc")])
    (.entries [("system", "sys"), ("user", "doc")]) rfl

/-- C10: the server cache creates at most one client per resolved
`base:recursive` key: a second `get_rlm_client` call with the same model
string returns the identical cached client and leaves the cache unchanged,
and any model string resolving to the same key yields the same result —
so session state held by the client persists across requests naming the
same model. -/
theorem get_rlm_client_cached_per_key (cache : ServerCache) (model : String)
    (recursiveModel : Option String) :
    get_rlm_client (get_rlm_client cache model recursiveModel).1 model recursiveModel =
      get_rlm_client cache model recursiveModel ∧
    ∀ (model' : String) (recursiveModel' : Option String),
      resolveClientKey model' recursiveModel' = resolveClientKey model recursiveModel →
      get_rlm_client cache model' recursiveModel' = get_rlm_client cache model recursiveModel := by
  constructor
  · unfold get_rlm_client
    cases hl : lookupKey ((resolveClientKey model recursiveModel).1 ++ ":" ++
        (resolveClientKey model recursiveModel).2) cache.clients with
    | some cid => simp [hl]
    | none => simp [hl, lookupKey]
  · intro m' r' hk
    unfold get_rlm_client
    rw [hk]

/-- C10 (witness): `gpt-5-nano` resolves to the key `gpt-5-nano:gpt-4o`
(the `nano` rule); the repeated call returns the cached client, and the
explicit spelling `gpt-5-nano:gpt-4o` hits the same cache entry. -/
theorem get_rlm_client_cached_per_key_witness :
    get_rlm_client (get_rlm_client ⟨[], 0⟩ "gpt-5-nano" none).1 "gpt-5-nano" none =
      get_rlm_client ⟨[], 0⟩ "gpt-5-nano" none ∧
    get_rlm_client ⟨[], 0⟩ "gpt-5-nano:gpt-4o" none = get_rlm_client ⟨[], 0⟩ "gpt-5-nano" none :=
  ⟨(get_rlm_client_cached_per_key ⟨[], 0⟩ "gpt-5-nano" none).1,
   (get_rlm_client_cached_per_key ⟨[], 0⟩ "gpt-5-nano" none).2 "gpt-5-nano:gpt-4o" none
     (by decide)⟩

end RLMSpec
